import Mathlib

/-!
Verification of the `sync-tokens-example` server supervisor (src/src/main.rs).

The program starts a TCP listener on a background task (`run_server`), signals
the bound address through a one-shot completion token, and runs an accept loop
(`run_server_int`) in which each accept attempt is spawned as its own task and
raced against a cancellation token (`allow_cancel`); cancellation terminates
the loop with a distinguished "Server terminated" interrupted error.

The embedding is a fuel-indexed functional model of the supervisor.  All
network outcomes (bind, local_addr, each accept attempt) and the race winner at
each loop iteration are supplied by an environment oracle `Env`, so theorems
quantify over every execution.  The `sync_tokens` crate itself is not part of
this repository; its two primitives are modelled from the spec (sections 4.1
and 4.2) and marked as such.
-/

namespace SyncTokensExample

/-- Error kinds, mirroring the `std::io::ErrorKind` values the program uses
(`ErrorKind::Interrupted` at main.rs line 47); every other kind is collapsed
into an opaque numeric code. -/
inductive ErrorKind where
  | interrupted
  | other (code : Nat)
deriving DecidableEq

/-- An I/O error: a kind plus a message, mirroring `std::io::Error::new(kind, msg)`. -/
structure IOErr where
  kind : ErrorKind
  msg : String
deriving DecidableEq

/-- IP addresses; the program only ever constructs `IpAddr::V4`. -/
inductive IpAddr where
  | v4 (a b c d : Nat)
deriving DecidableEq

/-- `Ipv4Addr::UNSPECIFIED`, i.e. 0.0.0.0 (main.rs line 31). -/
def unspecifiedV4 : IpAddr := IpAddr.v4 0 0 0 0

/-- A socket address: host and port (`SocketAddr::new(ip, port)`). -/
structure SocketAddr where
  ip : IpAddr
  port : Nat
deriving DecidableEq

/-- The wildcard/ephemeral bind request built at main.rs line 31:
`SocketAddr::new(IpAddr::V4(Ipv4Addr::UNSPECIFIED), 0)`. -/
def bindRequestAddr : SocketAddr := ⟨unspecifiedV4, 0⟩

/-- A bound TCP listener, abstracted to an identity token; its behaviour
(local address, accept outcomes) is supplied by the environment. -/
structure TcpListener where
  id : Nat
deriving DecidableEq

/-- An accepted TCP stream, abstracted to an identity token. -/
structure TcpStream where
  id : Nat
deriving DecidableEq

/-- Environment oracle: the outcomes of every platform operation in one
execution of the supervisor.  `acceptResult i` is the result the i-th accept
attempt eventually produces if it runs to completion; `canceledAt = some j`
means the cancellation signal wins the race at loop iteration `j` and (by the
cancellation invariant, spec section 3) at every later iteration;
`canceledAt = none` means cancellation never wins a race. -/
structure Env where
  bindResult : Except IOErr TcpListener
  localAddrResult : Except IOErr SocketAddr
  acceptResult : Nat → Except IOErr TcpStream
  canceledAt : Option Nat

/-- Whether the race at loop iteration `i` resolves to the cancellation
fallback: cancellation has occurred at or before iteration `i`. -/
def raceCanceled (env : Env) (i : Nat) : Bool :=
  match env.canceledAt with
  | some j => decide (j ≤ i)
  | none => false

/-- Modelled from the spec (section 4.1), since the `sync_tokens` crate code is
not in this repository: the shared state of a `CompletionToken`/`Completable`
pair.  State `Unset | Set(T)`; the only transition is `Unset → Set(T)`,
exactly once; dropping the producer has no side effect (spec: "Side effects:
none beyond waking suspended waiters", and section 9 records that on bind
failure the waiter never resolves). -/
inductive CompletionState (T : Type) where
  | unset
  | set (v : T)
deriving DecidableEq

/-- Modelled from the spec (section 4.1): `Completable::complete`.  The first
call transitions `Unset → Set(v)`; a second call is a contract violation and
has no observable effect. -/
def complete {T : Type} (s : CompletionState T) (v : T) : CompletionState T :=
  match s with
  | CompletionState.unset => CompletionState.set v
  | CompletionState.set w => CompletionState.set w

/-- Modelled from the spec (section 4.1): awaiting the `CompletionToken`.
Returns the stored value once set; `none` means the waiter stays suspended. -/
def wait {T : Type} : CompletionState T → Option T
  | CompletionState.unset => none
  | CompletionState.set v => some v

/-- Modelled from the spec (section 4.2), since the `sync_tokens` crate code is
not in this repository: the shared state of a `CancelationToken` pair.
State `Armed | Canceled`; the only transition is `Armed → Canceled`. -/
inductive CancelState where
  | armed
  | canceled
deriving DecidableEq

/-- Modelled from the spec (section 4.2): `CancelationToken::cancel`.
Idempotent, total, never an error: any state transitions to `Canceled`. -/
def cancel : CancelState → CancelState
  | _ => CancelState.canceled

/-- `cancel` applied `k` times. -/
def cancelK : Nat → CancelState → CancelState
  | 0, s => s
  | Nat.succ k, s => cancel (cancelK k s)

/-- Modelled from the spec (section 4.2): `Cancelable::allow_cancel`, the
race/select primitive.  If cancellation has occurred the fallback is returned
immediately, independently of the raced operation; otherwise the operation's
result is returned. -/
def allowCancel {α : Type} (canceled : Bool) (operation : α) (fallback : α) : α :=
  if canceled then fallback else operation

/-- The distinguished cancellation error built at main.rs line 47:
`Error::new(ErrorKind::Interrupted, "Server terminated")`. -/
def serverTerminated : IOErr := ⟨ErrorKind.interrupted, "Server terminated"⟩

/-- The body of `accept` (main.rs lines 54-57): the i-th accept attempt on
listener `l`.  `listener.accept().await?` yields the stream supplied by the
environment or propagates its error; on success the same listener is returned
alongside the stream, `Ok((listener, stream))`. -/
def accept (env : Env) (l : TcpListener) (i : Nat) : Except IOErr (TcpListener × TcpStream) :=
  match env.acceptResult i with
  | Except.ok s => Except.ok (l, s)
  | Except.error e => Except.error e

deriving instance DecidableEq for Except

/-- Instrumentation: the observable events of a supervisor execution.
`completed v` is `completable.complete(local_addr)` (line 36); `spawnAccept i l`
is `task::spawn(accept(l))` starting attempt `i` (lines 39 and 50);
`acceptConsumed i` marks the supervisor consuming attempt `i`'s result (the
race at lines 45-48 resolving to the attempt rather than to cancellation). -/
inductive Event where
  | completed (v : Except IOErr SocketAddr)
  | spawnAccept (i : Nat) (l : TcpListener)
  | acceptConsumed (i : Nat)
deriving DecidableEq

/-- Which exit of `run_server_int` fired.  `Cause.toResult` below recovers the
exact `Result` value the task returns. -/
inductive Cause where
  | bindFailed (e : IOErr)
  | canceled
  | acceptFailed (e : IOErr)
deriving DecidableEq

/-- The terminal `Result<()>` value of the task for each exit:
bind failure propagates its error via `?` (line 32); the cancellation fallback
`Err(Interrupted, "Server terminated")` propagates via `?` (lines 45-48); an
accept error propagates via the same `?`.  No exit produces `Ok(())`: the loop
at lines 41-51 has no break. -/
def Cause.toResult : Cause → Except IOErr Unit
  | Cause.bindFailed e => Except.error e
  | Cause.canceled => Except.error serverTerminated
  | Cause.acceptFailed e => Except.error e

/-- The accept loop of `run_server_int` (main.rs lines 41-51), at attempt
index `i` with listener `l`, given `fuel` further iterations to observe.
Each iteration races the in-flight attempt against cancellation
(`cancelable.allow_cancel(incoming_future, Err(Interrupted, "Server terminated")).await?`):
if cancellation wins, the fallback error is returned and the attempt is left
running unconsumed; if the attempt wins with an error, that error is returned;
if it wins with a connection, the connection is handed off and a fresh attempt
is spawned on the returned listener (line 50).  `none` means the loop is still
running after `fuel` iterations. -/
def runLoop (env : Env) : TcpListener → Nat → Nat → Option Cause × List Event
  | _, _, 0 => (none, [])
  | l, i, Nat.succ fuel =>
    match allowCancel (raceCanceled env i) (accept env l i) (Except.error serverTerminated) with
    | Except.error e =>
      if raceCanceled env i then (some Cause.canceled, [])
      else (some (Cause.acceptFailed e), [Event.acceptConsumed i])
    | Except.ok p =>
      let rest := runLoop env p.1 (i + 1) fuel
      (rest.1, Event.acceptConsumed i :: Event.spawnAccept (i + 1) p.1 :: rest.2)

/-- Outcome of running the supervisor: the exit cause (`none` = still running
after the given fuel) and the event trace. -/
structure RunOut where
  cause : Option Cause
  trace : List Event
deriving DecidableEq

/-- `run_server_int` (main.rs lines 29-52): bind the wildcard request (line 32,
`?` propagates a bind error before anything is signaled); query `local_addr`
and complete the token with that `Result` as-is (lines 35-36); spawn accept
attempt 0 (line 39); enter the loop. -/
def runServerInt (env : Env) (fuel : Nat) : RunOut :=
  match env.bindResult with
  | Except.error e => ⟨some (Cause.bindFailed e), []⟩
  | Except.ok listener =>
    let out := runLoop env listener 0 fuel
    ⟨out.1, Event.completed env.localAddrResult :: Event.spawnAccept 0 listener :: out.2⟩

/-- The terminal `Result<()>` of the supervisor task, when it has terminated. -/
def runResult (env : Env) (fuel : Nat) : Option (Except IOErr Unit) :=
  (runServerInt env fuel).cause.map Cause.toResult

/-- Folding one event into the completion token's shared state: only
`completable.complete` touches it. -/
def completionStep (s : CompletionState (Except IOErr SocketAddr)) (e : Event) :
    CompletionState (Except IOErr SocketAddr) :=
  match e with
  | Event.completed v => complete s v
  | _ => s

/-- The completion token's shared state after the supervisor has run: starts
`Unset` (created at main.rs line 16) and is driven by the trace. -/
def completionAfter (env : Env) (fuel : Nat) : CompletionState (Except IOErr SocketAddr) :=
  List.foldl completionStep CompletionState.unset (runServerInt env fuel).trace

/-- `run_server` (main.rs lines 12-27): creates the completion pair (line 16,
state starts `Unset`), the cancellation pair (line 21, state starts `Armed`),
spawns `run_server_int` with the `completable` and `cancelable` halves
(line 24), and returns the triple synchronously.  `blockingAwaits` counts the
await points `run_server` itself goes through: it is not an async fn and
contains none. -/
structure StartResult where
  serverFuture : Env → Nat → RunOut
  completionToken : CompletionState (Except IOErr SocketAddr)
  cancelationToken : CancelState
  blockingAwaits : Nat

/-- The embedding of `run_server` itself. -/
def runServer : StartResult :=
  { serverFuture := runServerInt
    completionToken := CompletionState.unset
    cancelationToken := CancelState.armed
    blockingAwaits := 0 }

/-- Recognises accept-attempt spawn events. -/
def isSpawn : Event → Bool
  | Event.spawnAccept _ _ => true
  | _ => false

/-- Recognises events where the supervisor consumed an attempt's result. -/
def isConsume : Event → Bool
  | Event.acceptConsumed _ => true
  | _ => false

/-- Number of accept attempts spawned in a trace. -/
def spawnCount (tr : List Event) : Nat := (List.filter isSpawn tr).length

/-- Number of accept-attempt results the supervisor consumed in a trace. -/
def consumeCount (tr : List Event) : Nat := (List.filter isConsume tr).length

/-- Concrete environment: bind succeeds, every accept succeeds, cancellation
wins the race at iteration 1. -/
def envCancelAtOne : Env :=
  { bindResult := Except.ok ⟨7⟩
    localAddrResult := Except.ok ⟨IpAddr.v4 127 0 0 1, 8080⟩
    acceptResult := fun _ => Except.ok ⟨5⟩
    canceledAt := some 1 }

/-- Concrete environment: bind succeeds, accept attempt 1 fails with a
connection-reset error, cancellation never wins. -/
def envAcceptErr : Env :=
  { bindResult := Except.ok ⟨7⟩
    localAddrResult := Except.ok ⟨IpAddr.v4 127 0 0 1, 8080⟩
    acceptResult := fun i => if i = 1 then Except.error ⟨ErrorKind.other 104, "reset"⟩ else Except.ok ⟨5⟩
    canceledAt := none }

/-- Concrete environment: bind fails with a permission-denied error. -/
def envBindFail : Env :=
  { bindResult := Except.error ⟨ErrorKind.other 13, "permission denied"⟩
    localAddrResult := Except.error ⟨ErrorKind.other 13, "permission denied"⟩
    acceptResult := fun _ => Except.ok ⟨5⟩
    canceledAt := none }

/-- Concrete environment: bind succeeds but the `local_addr` query fails. -/
def envLocalAddrErr : Env :=
  { bindResult := Except.ok ⟨7⟩
    localAddrResult := Except.error ⟨ErrorKind.other 22, "invalid"⟩
    acceptResult := fun _ => Except.ok ⟨5⟩
    canceledAt := some 0 }

/-! ### Step lemmas for the accept loop -/

/-- With no fuel left the loop is still running. -/
theorem runLoop_zero (env : Env) (l : TcpListener) (i : Nat) :
    runLoop env l i 0 = (none, []) := rfl

/-- If cancellation wins the race at iteration `i`, the loop exits with the
cancellation cause and attempt `i` is never consumed. -/
theorem runLoop_cancel (env : Env) (l : TcpListener) (i fuel : Nat)
    (h : raceCanceled env i = true) :
    runLoop env l i (fuel + 1) = (some Cause.canceled, []) := by
  simp [runLoop, allowCancel, h]

/-- If the attempt wins the race at iteration `i` with an error, the loop exits
with that error after consuming the attempt's result. -/
theorem runLoop_err (env : Env) (l : TcpListener) (i fuel : Nat) (e : IOErr)
    (h : raceCanceled env i = false) (he : env.acceptResult i = Except.error e) :
    runLoop env l i (fuel + 1) = (some (Cause.acceptFailed e), [Event.acceptConsumed i]) := by
  simp [runLoop, allowCancel, accept, h, he]

/-- If the attempt wins the race at iteration `i` with a connection, the loop
consumes it, spawns attempt `i + 1` on the same listener, and continues. -/
theorem runLoop_ok (env : Env) (l : TcpListener) (i fuel : Nat) (s : TcpStream)
    (h : raceCanceled env i = false) (hs : env.acceptResult i = Except.ok s) :
    runLoop env l i (fuel + 1) =
      ((runLoop env l (i + 1) fuel).1,
        Event.acceptConsumed i :: Event.spawnAccept (i + 1) l :: (runLoop env l (i + 1) fuel).2) := by
  simp [runLoop, allowCancel, accept, h, hs]

/-! ### Invariant lemmas for the accept loop -/

/-- Running the loop through `m` iterations that all resolve to successful
accepts leaves the exit cause that of the loop started at iteration `i + m`,
on the same listener. -/
theorem runLoop_reach (env : Env) (l : TcpListener) (m : Nat) :
    ∀ (i fuel : Nat),
    (∀ k, k < m → raceCanceled env (i + k) = false ∧ ∃ s, env.acceptResult (i + k) = Except.ok s) →
    (runLoop env l i (m + fuel)).1 = (runLoop env l (i + m) fuel).1 := by
  induction m with
  | zero => intro i fuel _; simp
  | succ m ih =>
    intro i fuel h
    obtain ⟨hc, s, hs⟩ := h 0 (Nat.succ_pos m)
    have hstep := runLoop_ok env l i (m + fuel) s (by simpa using hc) (by simpa using hs)
    have heq : m + 1 + fuel = (m + fuel) + 1 := by omega
    rw [heq, hstep]
    have hrest := ih (i + 1) fuel (fun k hk => by
      have h2 := h (k + 1) (by omega)
      have hx : i + (k + 1) = i + 1 + k := by omega
      rw [hx] at h2
      exact h2)
    have hx2 : i + 1 + m = i + (m + 1) := by omega
    rw [hx2] at hrest
    exact hrest

/-- If the loop exits with an accept failure, some accept attempt actually
produced that error and won its race against cancellation. -/
theorem runLoop_acceptFailed_inv (env : Env) :
    ∀ (fuel : Nat) (l : TcpListener) (i : Nat) (e : IOErr),
    (runLoop env l i fuel).1 = some (Cause.acceptFailed e) →
    ∃ k, env.acceptResult k = Except.error e ∧ raceCanceled env k = false := by
  intro fuel
  induction fuel with
  | zero => intro l i e h; simp [runLoop] at h
  | succ fuel ih =>
    intro l i e h
    cases hc : raceCanceled env i with
    | true => rw [runLoop_cancel env l i fuel hc] at h; simp at h
    | false =>
      cases ha : env.acceptResult i with
      | error e2 =>
        rw [runLoop_err env l i fuel e2 hc ha] at h
        simp at h
        exact ⟨i, by rw [ha, h], hc⟩
      | ok s =>
        rw [runLoop_ok env l i fuel s hc ha] at h
        exact ih l (i + 1) e h

/-- The loop never reports a bind failure: that exit belongs to the code
before the loop. -/
theorem runLoop_no_bindFailed (env : Env) :
    ∀ (fuel : Nat) (l : TcpListener) (i : Nat) (e : IOErr),
    (runLoop env l i fuel).1 ≠ some (Cause.bindFailed e) := by
  intro fuel
  induction fuel with
  | zero => intro l i e h; simp [runLoop] at h
  | succ fuel ih =>
    intro l i e h
    cases hc : raceCanceled env i with
    | true => rw [runLoop_cancel env l i fuel hc] at h; simp at h
    | false =>
      cases ha : env.acceptResult i with
      | error e2 => rw [runLoop_err env l i fuel e2 hc ha] at h; simp at h
      | ok s =>
        rw [runLoop_ok env l i fuel s hc ha] at h
        exact ih l (i + 1) e h

/-- If the loop exits because cancellation won a race, the attempts it spawned
are exactly the attempts it consumed: the in-flight attempt spawned before the
losing race is the only unconsumed one, and it came from outside the loop. -/
theorem runLoop_cancel_counts (env : Env) :
    ∀ (fuel : Nat) (l : TcpListener) (i : Nat),
    (runLoop env l i fuel).1 = some Cause.canceled →
    spawnCount (runLoop env l i fuel).2 = consumeCount (runLoop env l i fuel).2 := by
  intro fuel
  induction fuel with
  | zero => intro l i h; simp [runLoop] at h
  | succ fuel ih =>
    intro l i h
    cases hc : raceCanceled env i with
    | true => rw [runLoop_cancel env l i fuel hc]; rfl
    | false =>
      cases ha : env.acceptResult i with
      | error e2 => rw [runLoop_err env l i fuel e2 hc ha] at h; simp at h
      | ok s =>
        rw [runLoop_ok env l i fuel s hc ha] at h ⊢
        have := ih l (i + 1) h
        simp [spawnCount, consumeCount, isSpawn, isConsume] at this ⊢
        omega

/-- Every accept attempt the loop spawns runs on the very listener the loop
was started with: the listener is threaded through attempts unchanged. -/
theorem runLoop_spawn_listener (env : Env) :
    ∀ (fuel : Nat) (l : TcpListener) (i : Nat) (n : Nat) (l2 : TcpListener),
    Event.spawnAccept n l2 ∈ (runLoop env l i fuel).2 → l2 = l := by
  intro fuel
  induction fuel with
  | zero => intro l i n l2 h; simp [runLoop] at h
  | succ fuel ih =>
    intro l i n l2 h
    cases hc : raceCanceled env i with
    | true => rw [runLoop_cancel env l i fuel hc] at h; simp at h
    | false =>
      cases ha : env.acceptResult i with
      | error e2 => rw [runLoop_err env l i fuel e2 hc ha] at h; simp at h
      | ok s =>
        rw [runLoop_ok env l i fuel s hc ha] at h
        rcases List.mem_cons.mp h with h1 | h2
        · simp at h1
        · rcases List.mem_cons.mp h2 with h3 | h4
          · injection h3 with hn hl
          · exact ih l (i + 1) n l2 h4

/-- The loop never completes the completion token: folding its trace into any
completion state leaves the state unchanged. -/
theorem runLoop_completion_fold (env : Env) :
    ∀ (fuel : Nat) (l : TcpListener) (i : Nat) (s : CompletionState (Except IOErr SocketAddr)),
    List.foldl completionStep s (runLoop env l i fuel).2 = s := by
  intro fuel
  induction fuel with
  | zero => intro l i s; simp [runLoop]
  | succ fuel ih =>
    intro l i s
    cases hc : raceCanceled env i with
    | true => rw [runLoop_cancel env l i fuel hc]; rfl
    | false =>
      cases ha : env.acceptResult i with
      | error e2 => rw [runLoop_err env l i fuel e2 hc ha]; simp [completionStep]
      | ok st =>
        rw [runLoop_ok env l i fuel st hc ha]
        simp [completionStep]
        exact ih l (i + 1) s

/-- The accept loop reads only the accept outcomes and the cancellation point
of the environment; in particular it never reads the `local_addr` result. -/
theorem runLoop_congr (env env2 : Env)
    (hacc : ∀ j, env2.acceptResult j = env.acceptResult j)
    (hcan : env2.canceledAt = env.canceledAt) :
    ∀ (fuel : Nat) (l : TcpListener) (i : Nat),
    runLoop env2 l i fuel = runLoop env l i fuel := by
  intro fuel
  induction fuel with
  | zero => intro l i; rfl
  | succ fuel ih =>
    intro l i
    have hrc : raceCanceled env2 i = raceCanceled env i := by
      unfold raceCanceled; rw [hcan]
    cases hc : raceCanceled env i with
    | true =>
      rw [runLoop_cancel env2 l i fuel (by rw [hrc]; exact hc), runLoop_cancel env l i fuel hc]
    | false =>
      cases ha : env.acceptResult i with
      | error e =>
        rw [runLoop_err env2 l i fuel e (by rw [hrc]; exact hc) (by rw [hacc]; exact ha),
          runLoop_err env l i fuel e hc ha]
      | ok s =>
        rw [runLoop_ok env2 l i fuel s (by rw [hrc]; exact hc) (by rw [hacc]; exact ha),
          runLoop_ok env l i fuel s hc ha, ih]

/-- Cancellation visibility: once the cancellation point `j` is reached, every
race at iteration `j` or later resolves to the fallback. -/
theorem raceCanceled_true (env : Env) (j i : Nat) (hj : env.canceledAt = some j) (h : j ≤ i) :
    raceCanceled env i = true := by
  simp [raceCanceled, hj, h]

/-- Before the cancellation point, races resolve to the accept attempt. -/
theorem raceCanceled_false (env : Env) (j i : Nat) (hj : env.canceledAt = some j) (h : i < j) :
    raceCanceled env i = false := by
  simp [raceCanceled, hj]
  omega

/-- After a successful bind and `j` successful accepts, the supervisor's exit
cause is that of the loop positioned at iteration `j`. -/
theorem runServerInt_cause_at (env : Env) (l : TcpListener) (j fuel : Nat)
    (hb : env.bindResult = Except.ok l)
    (hrc : ∀ k, k < j → raceCanceled env k = false)
    (hacc : ∀ k, k < j → ∃ s, env.acceptResult k = Except.ok s)
    (hfuel : j < fuel) :
    (runServerInt env fuel).cause = (runLoop env l j (fuel - j)).1 := by
  have hreach := runLoop_reach env l j 0 (fuel - j)
    (fun k hk => ⟨by simpa using hrc k hk, by simpa using hacc k hk⟩)
  rw [Nat.zero_add] at hreach
  have hfj : j + (fuel - j) = fuel := by omega
  rw [hfj] at hreach
  simpa [runServerInt, hb] using hreach

/-! ### The claims -/

/-- C1: when the bind fails, the bind error does propagate to the supervisor
task's terminal result, but the completion token is never driven to `Set`: for
every amount of fuel the shared state stays `Unset` and a waiter stays
suspended forever.  The second half of the claim fails on the code: main.rs
line 32 propagates the bind error with `?` before `completable.complete` at
line 36 ever runs, exactly the latent bug the spec flags in sections 7 and 9. -/
theorem C1_bind_failure_propagates_but_completion_never_set :
    runResult envBindFail 3 = some (Except.error ⟨ErrorKind.other 13, "permission denied"⟩) ∧
    (∀ fuel, completionAfter envBindFail fuel = CompletionState.unset) ∧
    (∀ fuel, wait (completionAfter envBindFail fuel) = none) :=
  ⟨rfl, fun _ => rfl, fun _ => rfl⟩

/-- C2: in every execution where the bind succeeds (and the `local_addr` query
yields the platform-assigned address, with its nonzero port), the supervisor
completes the token with exactly that address, the completion event precedes
the spawning of the first accept attempt in the trace, and every waiter on the
token resolves to that same address value. -/
theorem C2_success_signals_bound_address_before_accepting (env : Env) (fuel : Nat)
    (l : TcpListener) (a : SocketAddr) (hb : env.bindResult = Except.ok l)
    (hla : env.localAddrResult = Except.ok a) (hp : 0 < a.port) :
    (∃ rest, (runServerInt env fuel).trace =
      Event.completed (Except.ok a) :: Event.spawnAccept 0 l :: rest) ∧
    completionAfter env fuel = CompletionState.set (Except.ok a) ∧
    wait (completionAfter env fuel) = some (Except.ok a) ∧
    0 < a.port := by
  have htr : (runServerInt env fuel).trace =
      Event.completed (Except.ok a) :: Event.spawnAccept 0 l :: (runLoop env l 0 fuel).2 := by
    simp [runServerInt, hb, hla]
  have hca : completionAfter env fuel = CompletionState.set (Except.ok a) := by
    unfold completionAfter
    rw [htr, List.foldl_cons, List.foldl_cons]
    exact runLoop_completion_fold env fuel l 0 _
  exact ⟨⟨(runLoop env l 0 fuel).2, htr⟩, hca, by rw [hca]; rfl, hp⟩

/-- Witness for C2 on a concrete environment: bind yields listener 7 and the
platform reports 127.0.0.1:8080. -/
theorem C2_witness :
    envCancelAtOne.bindResult = Except.ok ⟨7⟩ ∧
    envCancelAtOne.localAddrResult = Except.ok ⟨IpAddr.v4 127 0 0 1, 8080⟩ ∧
    0 < (8080 : Nat) ∧
    ((∃ rest, (runServerInt envCancelAtOne 3).trace =
      Event.completed (Except.ok ⟨IpAddr.v4 127 0 0 1, 8080⟩) ::
        Event.spawnAccept 0 ⟨7⟩ :: rest) ∧
    completionAfter envCancelAtOne 3 =
      CompletionState.set (Except.ok ⟨IpAddr.v4 127 0 0 1, 8080⟩) ∧
    wait (completionAfter envCancelAtOne 3) = some (Except.ok ⟨IpAddr.v4 127 0 0 1, 8080⟩) ∧
    0 < SocketAddr.port ⟨IpAddr.v4 127 0 0 1, 8080⟩) :=
  ⟨rfl, rfl, by decide,
    C2_success_signals_bound_address_before_accepting envCancelAtOne 3 ⟨7⟩
      ⟨IpAddr.v4 127 0 0 1, 8080⟩ rfl rfl (by decide)⟩

/-- C8: `run_server` is non-blocking and purely structural: it creates the
completion pair in `Unset`, the cancellation pair in `Armed`, spawns
`run_server_int` as the background task owning the producer and canceler
halves, goes through zero await points, and returns exactly the triple of task
handle, completion waiter and cancellation trigger; the spawned task is the
one whose trace drives the returned completion token. -/
theorem C8_run_server_returns_triple_without_blocking :
    runServer.serverFuture = runServerInt ∧
    runServer.completionToken = CompletionState.unset ∧
    runServer.cancelationToken = CancelState.armed ∧
    runServer.blockingAwaits = 0 ∧
    ∀ env fuel,
      List.foldl completionStep runServer.completionToken (runServer.serverFuture env fuel).trace =
        completionAfter env fuel :=
  ⟨rfl, rfl, rfl, rfl, fun _ _ => rfl⟩

/-- C9: triggering cancellation `k` times for any `k ≥ 1` is the same
observable transition as triggering it once — the state ends `Canceled`, from
any starting state (so also when the server already terminated), and the
operation is total, never an error. -/
theorem C9_cancel_idempotent (k : Nat) (s : CancelState) (hk : 1 ≤ k) :
    cancelK k s = cancelK 1 s ∧ cancelK k s = CancelState.canceled := by
  obtain ⟨m, rfl⟩ : ∃ m, k = m + 1 := ⟨k - 1, by omega⟩
  have h1 : ∀ t : CancelState, cancel t = CancelState.canceled := fun _ => rfl
  rw [show cancelK (m + 1) s = cancel (cancelK m s) from rfl, h1, show cancelK 1 s = cancel s from rfl, h1]
  exact ⟨rfl, rfl⟩

/-- Witness for C9: three triggers from `Armed` behave as one. -/
theorem C9_witness :
    1 ≤ 3 ∧ (cancelK 3 CancelState.armed = cancelK 1 CancelState.armed ∧
      cancelK 3 CancelState.armed = CancelState.canceled) :=
  ⟨by decide, C9_cancel_idempotent 3 CancelState.armed (by decide)⟩

/-- C10: if the bind succeeds but the `local_addr` query fails, the completion
token is completed with that error (waiters observe `Err`), yet the supervisor
still spawns accept attempt 0 and the loop's behaviour — hence the task's
exit cause — is exactly what it would have been had the query succeeded: an
error on the completion token does not mean the server failed to start. -/
theorem C10_localaddr_error_signaled_while_server_keeps_serving (env : Env) (fuel : Nat)
    (l : TcpListener) (e : IOErr) (hb : env.bindResult = Except.ok l)
    (hla : env.localAddrResult = Except.error e) :
    completionAfter env fuel = CompletionState.set (Except.error e) ∧
    wait (completionAfter env fuel) = some (Except.error e) ∧
    Event.spawnAccept 0 l ∈ (runServerInt env fuel).trace ∧
    ∀ a : SocketAddr,
      (runServerInt { env with localAddrResult := Except.ok a } fuel).cause =
        (runServerInt env fuel).cause := by
  have htr : (runServerInt env fuel).trace =
      Event.completed (Except.error e) :: Event.spawnAccept 0 l :: (runLoop env l 0 fuel).2 := by
    simp [runServerInt, hb, hla]
  have hca : completionAfter env fuel = CompletionState.set (Except.error e) := by
    unfold completionAfter
    rw [htr, List.foldl_cons, List.foldl_cons]
    exact runLoop_completion_fold env fuel l 0 _
  refine ⟨hca, by rw [hca]; rfl, by rw [htr]; simp, ?_⟩
  intro a
  have hb2 : Env.bindResult { env with localAddrResult := Except.ok a } = Except.ok l := hb
  simp [runServerInt, hb, hb2]
  exact congrArg Prod.fst
    (runLoop_congr env
      { bindResult := Except.ok l, localAddrResult := Except.ok a,
        acceptResult := env.acceptResult, canceledAt := env.canceledAt }
      (fun _ => rfl) rfl fuel l 0)

/-- Witness for C10 on a concrete environment whose `local_addr` query fails. -/
theorem C10_witness :
    envLocalAddrErr.bindResult = Except.ok ⟨7⟩ ∧
    envLocalAddrErr.localAddrResult = Except.error ⟨ErrorKind.other 22, "invalid"⟩ ∧
    (completionAfter envLocalAddrErr 2 =
      CompletionState.set (Except.error ⟨ErrorKind.other 22, "invalid"⟩) ∧
    wait (completionAfter envLocalAddrErr 2) =
      some (Except.error ⟨ErrorKind.other 22, "invalid"⟩) ∧
    Event.spawnAccept 0 ⟨7⟩ ∈ (runServerInt envLocalAddrErr 2).trace ∧
    ∀ a : SocketAddr,
      (runServerInt { envLocalAddrErr with localAddrResult := Except.ok a } 2).cause =
        (runServerInt envLocalAddrErr 2).cause) :=
  ⟨rfl, rfl,
    C10_localaddr_error_signaled_while_server_keeps_serving envLocalAddrErr 2 ⟨7⟩
      ⟨ErrorKind.other 22, "invalid"⟩ rfl rfl⟩

/-- C3: when the cancellation trigger is canceled (taking effect at race `j`,
the earlier attempts having accepted connections), the supervisor terminates
and its terminal result is exactly `Err(Interrupted, "Server terminated")`;
moreover, on any execution whatsoever, a cancellation exit produces this one
value and no other, so any other error the caller observes comes from a
failure independent of cancellation. -/
theorem C3_cancellation_terminates_with_interrupted_error (env : Env) (fuel j : Nat)
    (l : TcpListener) (hb : env.bindResult = Except.ok l)
    (hj : env.canceledAt = some j)
    (hacc : ∀ k, k < j → ∃ s, env.acceptResult k = Except.ok s)
    (hfuel : j < fuel) :
    (runServerInt env fuel).cause = some Cause.canceled ∧
    runResult env fuel = some (Except.error serverTerminated) ∧
    serverTerminated = ⟨ErrorKind.interrupted, "Server terminated"⟩ ∧
    (∀ (env2 : Env) (fuel2 : Nat), (runServerInt env2 fuel2).cause = some Cause.canceled →
      runResult env2 fuel2 = some (Except.error serverTerminated)) := by
  have hcause := runServerInt_cause_at env l j fuel hb
    (fun k hk => raceCanceled_false env j k hj hk) hacc hfuel
  obtain ⟨f2, hf2⟩ : ∃ f2, fuel - j = f2 + 1 := ⟨fuel - j - 1, by omega⟩
  have hc : (runServerInt env fuel).cause = some Cause.canceled := by
    rw [hcause, hf2, runLoop_cancel env l j f2 (raceCanceled_true env j j hj le_rfl)]
  exact ⟨hc, by simp [runResult, hc, Cause.toResult], rfl,
    fun env2 fuel2 h2 => by simp [runResult, h2, Cause.toResult]⟩

/-- Witness for C3: cancellation takes effect at race 1 after one successful
accept. -/
theorem C3_witness :
    envCancelAtOne.bindResult = Except.ok ⟨7⟩ ∧
    envCancelAtOne.canceledAt = some 1 ∧
    (∀ k, k < 1 → ∃ s, envCancelAtOne.acceptResult k = Except.ok s) ∧
    1 < 3 ∧
    ((runServerInt envCancelAtOne 3).cause = some Cause.canceled ∧
    runResult envCancelAtOne 3 = some (Except.error serverTerminated) ∧
    serverTerminated = ⟨ErrorKind.interrupted, "Server terminated"⟩ ∧
    (∀ (env2 : Env) (fuel2 : Nat), (runServerInt env2 fuel2).cause = some Cause.canceled →
      runResult env2 fuel2 = some (Except.error serverTerminated))) :=
  ⟨rfl, rfl, fun _ _ => ⟨⟨5⟩, rfl⟩, by decide,
    C3_cancellation_terminates_with_interrupted_error envCancelAtOne 3 1 ⟨7⟩ rfl rfl
      (fun _ _ => ⟨⟨5⟩, rfl⟩) (by decide)⟩

/-- C4: every terminating execution of the supervisor ends in an error —
`Ok(())` is never produced — and the only exits are cancellation (yielding the
distinguished error), a bind failure propagating the bind error, or an accept
attempt's error that won its race against cancellation. -/
theorem C4_terminal_result_is_never_ok (env : Env) (fuel : Nat) (c : Cause)
    (h : (runServerInt env fuel).cause = some c) :
    Cause.toResult c ≠ Except.ok () ∧
    runResult env fuel = some (Cause.toResult c) ∧
    (c = Cause.canceled ∨
      (∃ e, c = Cause.bindFailed e ∧ env.bindResult = Except.error e) ∨
      (∃ e, c = Cause.acceptFailed e ∧
        ∃ k, env.acceptResult k = Except.error e ∧ raceCanceled env k = false)) := by
  refine ⟨by cases c <;> simp [Cause.toResult], by simp [runResult, h], ?_⟩
  cases c with
  | canceled => exact Or.inl rfl
  | bindFailed e =>
    refine Or.inr (Or.inl ⟨e, rfl, ?_⟩)
    cases hbr : env.bindResult with
    | error e2 =>
      simp [runServerInt, hbr] at h
      rw [h]
    | ok l =>
      have hloop : (runLoop env l 0 fuel).1 = some (Cause.bindFailed e) := by
        simpa [runServerInt, hbr] using h
      exact absurd hloop (runLoop_no_bindFailed env fuel l 0 e)
  | acceptFailed e =>
    refine Or.inr (Or.inr ⟨e, rfl, ?_⟩)
    cases hbr : env.bindResult with
    | error e2 => simp [runServerInt, hbr] at h
    | ok l =>
      have hloop : (runLoop env l 0 fuel).1 = some (Cause.acceptFailed e) := by
        simpa [runServerInt, hbr] using h
      exact runLoop_acceptFailed_inv env fuel l 0 e hloop

/-- Witness for C4: accept attempt 1 fails with a reset error. -/
theorem C4_witness :
    (runServerInt envAcceptErr 3).cause =
      some (Cause.acceptFailed ⟨ErrorKind.other 104, "reset"⟩) ∧
    (Cause.toResult (Cause.acceptFailed ⟨ErrorKind.other 104, "reset"⟩) ≠ Except.ok () ∧
    runResult envAcceptErr 3 =
      some (Cause.toResult (Cause.acceptFailed ⟨ErrorKind.other 104, "reset"⟩)) ∧
    (Cause.acceptFailed ⟨ErrorKind.other 104, "reset"⟩ = Cause.canceled ∨
      (∃ e, Cause.acceptFailed ⟨ErrorKind.other 104, "reset"⟩ = Cause.bindFailed e ∧
        envAcceptErr.bindResult = Except.error e) ∨
      (∃ e, Cause.acceptFailed ⟨ErrorKind.other 104, "reset"⟩ = Cause.acceptFailed e ∧
        ∃ k, envAcceptErr.acceptResult k = Except.error e ∧
          raceCanceled envAcceptErr k = false))) :=
  ⟨by decide,
    C4_terminal_result_is_never_ok envAcceptErr 3
      (Cause.acceptFailed ⟨ErrorKind.other 104, "reset"⟩) (by decide)⟩

/-- C5: the race primitive returns the fallback when cancellation has occurred,
independently of the raced operation (it does not wait for it); on a
supervisor execution that terminates through cancellation, the terminal value
is the fallback and exactly one spawned accept attempt — the single in-flight
one — was never consumed: abandoned, its result discarded, while the model
contains no operation that aborts a spawned attempt. -/
theorem C5_race_abandons_at_most_one_inflight_accept (env : Env) (fuel : Nat)
    (h : (runServerInt env fuel).cause = some Cause.canceled) :
    (∀ (α : Type) (op fb : α), allowCancel true op fb = fb) ∧
    runResult env fuel = some (Except.error serverTerminated) ∧
    spawnCount (runServerInt env fuel).trace = consumeCount (runServerInt env fuel).trace + 1 := by
  refine ⟨fun α op fb => rfl, by simp [runResult, h, Cause.toResult], ?_⟩
  cases hbr : env.bindResult with
  | error e => simp [runServerInt, hbr] at h
  | ok l =>
    have hloop : (runLoop env l 0 fuel).1 = some Cause.canceled := by
      simpa [runServerInt, hbr] using h
    have hcnt := runLoop_cancel_counts env fuel l 0 hloop
    have htr : (runServerInt env fuel).trace =
        Event.completed env.localAddrResult :: Event.spawnAccept 0 l :: (runLoop env l 0 fuel).2 := by
      simp [runServerInt, hbr]
    rw [htr]
    simp [spawnCount, consumeCount, isSpawn, isConsume] at hcnt ⊢
    omega

/-- Witness for C5: cancellation at race 1 abandons exactly the one in-flight
attempt. -/
theorem C5_witness :
    (runServerInt envCancelAtOne 3).cause = some Cause.canceled ∧
    ((∀ (α : Type) (op fb : α), allowCancel true op fb = fb) ∧
    runResult envCancelAtOne 3 = some (Except.error serverTerminated) ∧
    spawnCount (runServerInt envCancelAtOne 3).trace =
      consumeCount (runServerInt envCancelAtOne 3).trace + 1) :=
  ⟨by decide, C5_race_abandons_at_most_one_inflight_accept envCancelAtOne 3 (by decide)⟩

/-- C6: a loop iteration whose accept attempt succeeds is never terminal: it
consumes the connection, immediately spawns a fresh attempt on the very same
listener, and leaves the exit cause to the continuation; every attempt ever
spawned runs on the one listener bound at startup; and cancellation arriving
for the next race is still observed, terminating the loop there. -/
theorem C6_successful_accept_loops_on_same_listener (env : Env) (fuel i : Nat)
    (l : TcpListener) (s : TcpStream)
    (hb : env.bindResult = Except.ok l)
    (hc : raceCanceled env i = false)
    (hs : env.acceptResult i = Except.ok s) :
    (runLoop env l i (fuel + 1)).1 = (runLoop env l (i + 1) fuel).1 ∧
    (runLoop env l i (fuel + 1)).2 =
      Event.acceptConsumed i :: Event.spawnAccept (i + 1) l :: (runLoop env l (i + 1) fuel).2 ∧
    (∀ n l2, Event.spawnAccept n l2 ∈ (runServerInt env fuel).trace → l2 = l) ∧
    (raceCanceled env (i + 1) = true →
      (runLoop env l i (fuel + 2)).1 = some Cause.canceled) := by
  have hstep := runLoop_ok env l i fuel s hc hs
  refine ⟨by rw [hstep], by rw [hstep], ?_, ?_⟩
  · intro n l2 hmem
    have htr : (runServerInt env fuel).trace =
        Event.completed env.localAddrResult :: Event.spawnAccept 0 l :: (runLoop env l 0 fuel).2 := by
      simp [runServerInt, hb]
    rw [htr] at hmem
    rcases List.mem_cons.mp hmem with h1 | h2
    · simp at h1
    · rcases List.mem_cons.mp h2 with h3 | h4
      · injection h3 with hn hl
      · exact runLoop_spawn_listener env fuel l 0 n l2 h4
  · intro hcan
    have hstep2 := runLoop_ok env l i (fuel + 1) s hc hs
    rw [hstep2, runLoop_cancel env l (i + 1) fuel hcan]

/-- Witness for C6: attempt 0 succeeds, cancellation is observed at race 1. -/
theorem C6_witness :
    envCancelAtOne.bindResult = Except.ok ⟨7⟩ ∧
    raceCanceled envCancelAtOne 0 = false ∧
    envCancelAtOne.acceptResult 0 = Except.ok ⟨5⟩ ∧
    ((runLoop envCancelAtOne ⟨7⟩ 0 (1 + 1)).1 = (runLoop envCancelAtOne ⟨7⟩ (0 + 1) 1).1 ∧
    (runLoop envCancelAtOne ⟨7⟩ 0 (1 + 1)).2 =
      Event.acceptConsumed 0 :: Event.spawnAccept (0 + 1) ⟨7⟩ ::
        (runLoop envCancelAtOne ⟨7⟩ (0 + 1) 1).2 ∧
    (∀ n l2, Event.spawnAccept n l2 ∈ (runServerInt envCancelAtOne 1).trace → l2 = ⟨7⟩) ∧
    (raceCanceled envCancelAtOne (0 + 1) = true →
      (runLoop envCancelAtOne ⟨7⟩ 0 (1 + 2)).1 = some Cause.canceled)) :=
  ⟨rfl, by decide, rfl,
    C6_successful_accept_loops_on_same_listener envCancelAtOne 1 0 ⟨7⟩ ⟨5⟩ rfl (by decide) rfl⟩

/-- C7: if the accept attempt at iteration `j` fails with an I/O error after
winning its race (no cancellation through `j`, earlier attempts successful),
the supervisor terminates with exactly that error as its terminal result, at
iteration `j` — giving the loop more fuel changes nothing, so nothing is
retried. -/
theorem C7_accept_error_is_fatal_and_propagates (env : Env) (fuel j : Nat)
    (l : TcpListener) (e : IOErr)
    (hb : env.bindResult = Except.ok l)
    (hnc : ∀ k, k ≤ j → raceCanceled env k = false)
    (hacc : ∀ k, k < j → ∃ s, env.acceptResult k = Except.ok s)
    (he : env.acceptResult j = Except.error e)
    (hfuel : j < fuel) :
    (runServerInt env fuel).cause = some (Cause.acceptFailed e) ∧
    runResult env fuel = some (Except.error e) ∧
    (∀ fuel2, j < fuel2 → (runServerInt env fuel2).cause = some (Cause.acceptFailed e)) := by
  have key : ∀ fuel2, j < fuel2 → (runServerInt env fuel2).cause = some (Cause.acceptFailed e) := by
    intro fuel2 hf2
    have hcause := runServerInt_cause_at env l j fuel2 hb
      (fun k hk => hnc k (Nat.le_of_lt hk)) hacc hf2
    obtain ⟨f2, hf3⟩ : ∃ f2, fuel2 - j = f2 + 1 := ⟨fuel2 - j - 1, by omega⟩
    rw [hcause, hf3, runLoop_err env l j f2 e (hnc j le_rfl) he]
  have hc := key fuel hfuel
  exact ⟨hc, by simp [runResult, hc, Cause.toResult], key⟩

/-- Witness for C7: accept attempt 1 fails with a reset error after one
successful accept, and the error is the task's terminal result. -/
theorem C7_witness :
    envAcceptErr.bindResult = Except.ok ⟨7⟩ ∧
    (∀ k, k ≤ 1 → raceCanceled envAcceptErr k = false) ∧
    (∀ k, k < 1 → ∃ s, envAcceptErr.acceptResult k = Except.ok s) ∧
    envAcceptErr.acceptResult 1 = Except.error ⟨ErrorKind.other 104, "reset"⟩ ∧
    1 < 3 ∧
    ((runServerInt envAcceptErr 3).cause =
      some (Cause.acceptFailed ⟨ErrorKind.other 104, "reset"⟩) ∧
    runResult envAcceptErr 3 = some (Except.error ⟨ErrorKind.other 104, "reset"⟩) ∧
    (∀ fuel2, 1 < fuel2 → (runServerInt envAcceptErr fuel2).cause =
      some (Cause.acceptFailed ⟨ErrorKind.other 104, "reset"⟩))) :=
  ⟨rfl, fun k _ => rfl,
    fun k hk => by
      obtain rfl : k = 0 := by omega
      exact ⟨⟨5⟩, rfl⟩,
    rfl, by decide,
    C7_accept_error_is_fatal_and_propagates envAcceptErr 3 1 ⟨7⟩
      ⟨ErrorKind.other 104, "reset"⟩ rfl (fun k _ => rfl)
      (fun k hk => by
        obtain rfl : k = 0 := by omega
        exact ⟨⟨5⟩, rfl⟩) rfl (by decide)⟩

end SyncTokensExample
